import Mathlib

/-!
Verification development for the xnote offline-first note synchronizer
(`src/sync/googleAuth.js`, `src/sync/driveApi.js`, `src/db.js`).

The sync engine is shallowly embedded: the IndexedDB-backed local store
becomes an explicit state record `St`, the Drive HTTP API becomes an
abstract environment `Drive` whose calls return `Except RemoteErr`, and
the async pipelines become state-passing functions.  JavaScript object
fields that may be absent are `Option`; JavaScript string truthiness
(`x || null`, `if (!x)`) is modelled by `truthyStr`, where `none` stands
for an absent or empty string.  Remote errors are structured: the source
inspects error message text for "File not found" / "404", which is
modelled by the `RemoteErr.notFound` constructor.
-/

/-- A note record, as produced by the editor and by `JSON.parse` of a
downloaded Drive file body.  `noteId` is the IndexedDB key path and is
always present; the remaining fields may be absent, hence `Option`.
Timestamps are epoch milliseconds (`Nat`). -/
structure Note where
  noteId : String
  title : Option String := none
  body : Option String := none
  updatedAtMs : Option Nat := none
  deletedAtMs : Option Nat := none
deriving Repr, DecidableEq

/-- Which side won the last-write-wins comparison. -/
inductive Winner where
  | localWin
  | remoteWin
deriving Repr, DecidableEq

/-- Result of `mergeLastWriteWins`: `{ winner, merged }`. -/
structure MergeResult where
  winner : Winner
  merged : Note
deriving Repr, DecidableEq

/-- The JavaScript object spread `{ ...local, ...remote }` restricted to
the `Note` fields: every field present on the remote note overrides the
local one, fields absent from remote keep their local values.  `noteId`
is always present on the remote side, so it is taken from `remote`. -/
def overlayNote (loc rem : Note) : Note :=
  { noteId := rem.noteId
    title := match rem.title with
      | some t => some t
      | none => loc.title
    body := match rem.body with
      | some b => some b
      | none => loc.body
    updatedAtMs := match rem.updatedAtMs with
      | some u => some u
      | none => loc.updatedAtMs
    deletedAtMs := match rem.deletedAtMs with
      | some d => some d
      | none => loc.deletedAtMs }

/-- `mergeLastWriteWins` from `src/sync/googleAuth.js` lines 113-119.
`Number(x.updatedAtMs || 0)` coerces an absent or zero timestamp to 0,
which is `Option.getD 0` here. -/
def mergeLastWriteWins : Option Note → Note → MergeResult
  | none, remote => { winner := .remoteWin, merged := remote }
  | some loc, remote =>
      let l := loc.updatedAtMs.getD 0
      let r := remote.updatedAtMs.getD 0
      if r > l then { winner := .remoteWin, merged := overlayNote loc remote }
      else { winner := .localWin, merged := loc }

/-- An outbox operation type: the upsert or delete string tag. -/
inductive OpType where
  | upsert
  | del
deriving Repr, DecidableEq

/-- An outbox operation record (`outbox` store, key path `opId`). -/
structure OutboxOp where
  opId : String
  type : OpType
  noteId : String
  queuedAtMs : Nat
deriving Repr, DecidableEq

/-- A `driveMap` store record: local note id to Drive file id, with the
optional md5 checksum stored by `pushUpsert`. -/
structure DriveMapping where
  noteId : String
  driveFileId : String
  md5 : Option String := none
deriving Repr, DecidableEq

/-- Observable actions of one sync run: local-store writes and issued
remote calls, in program order.  Used to state trace properties. -/
inductive Event where
  | putNoteEv (note : Note)
  | deleteOpEv (opId : String)
  | putDriveMapEv (m : DriveMapping)
  | deleteDriveMapEv (noteId : String)
  | setMetaEv (key value : String)
  | remoteCreate (name : String) (note : Note)
  | remoteUpdate (fileId : String) (note : Note)
  | remoteDelete (fileId : String)
  | remoteFind (noteId : String)
  | remoteListAll
  | remoteDownload (fileId : String)
  | remoteStartToken
  | remoteListChanges (pageToken : String)
deriving Repr, DecidableEq

/-- The local IndexedDB state (`src/db.js`), plus the event trace.
`outbox` is kept in the order the `queuedAtMs` index delivers it
(ascending `queuedAtMs`, ties by `opId`), which is the order `listOps`
returns. -/
structure St where
  notes : List Note := []
  outbox : List OutboxOp := []
  driveMap : List DriveMapping := []
  meta : List (String × String) := []
  events : List Event := []
deriving Repr, DecidableEq

/-- Append an observable event to the trace. -/
def logEvent (st : St) (e : Event) : St :=
  { st with events := st.events ++ [e] }

/-- `getNote` from `src/db.js`: fetch a note by id. -/
def getNote (st : St) (noteId : String) : Option Note :=
  st.notes.find? (fun n => n.noteId == noteId)

/-- `putNote` from `src/db.js`: store (insert or overwrite) a note. -/
def putNote (st : St) (note : Note) : St :=
  { st with
      notes := note :: st.notes.filter (fun n => n.noteId != note.noteId)
      events := st.events ++ [Event.putNoteEv note] }

/-- `listOps` from `src/db.js`: the outbox in `queuedAtMs` index order. -/
def listOps (st : St) : List OutboxOp :=
  st.outbox

/-- `deleteOp` from `src/db.js`: remove an outbox operation by id. -/
def deleteOp (st : St) (opId : String) : St :=
  { st with
      outbox := st.outbox.filter (fun o => o.opId != opId)
      events := st.events ++ [Event.deleteOpEv opId] }

/-- `getDriveMap` from `src/db.js`. -/
def getDriveMap (st : St) (noteId : String) : Option DriveMapping :=
  st.driveMap.find? (fun m => m.noteId == noteId)

/-- `putDriveMap` from `src/db.js`. -/
def putDriveMap (st : St) (m : DriveMapping) : St :=
  { st with
      driveMap := m :: st.driveMap.filter (fun x => x.noteId != m.noteId)
      events := st.events ++ [Event.putDriveMapEv m] }

/-- `deleteDriveMap` from `src/db.js`. -/
def deleteDriveMap (st : St) (noteId : String) : St :=
  { st with
      driveMap := st.driveMap.filter (fun m => m.noteId != noteId)
      events := st.events ++ [Event.deleteDriveMapEv noteId] }

/-- `getMeta` from `src/db.js`. -/
def getMeta (st : St) (key : String) : Option String :=
  (st.meta.find? (fun kv => kv.1 == key)).map (fun kv => kv.2)

/-- `setMeta` from `src/db.js`. -/
def setMeta (st : St) (key value : String) : St :=
  { st with
      meta := (key, value) :: st.meta.filter (fun kv => kv.1 != key)
      events := st.events ++ [Event.setMetaEv key value] }

/-- JavaScript string truthiness for optional strings: `none` models an
absent value, and the empty string is falsy (`x?.y || null`). -/
def truthyStr : Option String → Option String
  | some s => if s = "" then none else some s
  | none => none

/-- JavaScript truthiness for an optional numeric field, e.g.
`if (note.deletedAtMs)`: absent and 0 are falsy. -/
def truthyNat : Option Nat → Bool
  | some n => n != 0
  | none => false

/-- A structured Drive error: `notFound` models an error whose message
contains "File not found" or "404"; `other` is any other failure. -/
inductive RemoteErr where
  | notFound
  | other (msg : String)
deriving Repr, DecidableEq

/-- The `{id, md5Checksum}` response of the multipart create/update
endpoints (`fields=id,md5Checksum`). -/
structure CreatedFile where
  id : String
  md5Checksum : Option String := none
deriving Repr, DecidableEq

/-- A file descriptor returned by `listAllNoteFiles` during bootstrap:
id plus the `appProperties` the pull inspects. -/
structure RemoteFile where
  id : String
  appKind : Option String := none
  appNoteId : Option String := none
deriving Repr, DecidableEq

/-- The `change.file` sub-object of a change-feed entry. -/
structure ChangeFile where
  trashed : Bool := false
  appKind : Option String := none
  appNoteId : Option String := none
deriving Repr, DecidableEq

/-- One entry of the Drive change feed. -/
structure Change where
  fileId : Option String := none
  removed : Bool := false
  file : Option ChangeFile := none
deriving Repr, DecidableEq

/-- One page of the Drive change feed. -/
structure ChangePage where
  changes : List Change := []
  nextPageToken : Option String := none
  newStartPageToken : Option String := none
deriving Repr, DecidableEq

/-- The abstract Drive API (`src/sync/driveApi.js`) as a deterministic
environment; each call may fail.  `parseNote` stands for `JSON.parse` of
a downloaded body: `none` when the body does not parse as a note. -/
structure Drive where
  createFile : String → Note → Except RemoteErr CreatedFile
  updateFile : String → Note → Except RemoteErr CreatedFile
  deleteFile : String → Except RemoteErr Unit
  downloadFile : String → Except RemoteErr String
  parseNote : String → Option Note
  findNoteFileByNoteId : String → Except RemoteErr (Option String)
  listAllNoteFiles : Except RemoteErr (List RemoteFile)
  getStartPageToken : Except RemoteErr String
  listChanges : String → Except RemoteErr ChangePage

/-- `noteFileName` from `src/sync/googleAuth.js`. -/
def noteFileName (noteId : String) : String :=
  "note-" ++ noteId ++ ".json"

/-- The shared tail of `pushUpsert` once a remote file id is known:
issue the multipart update, then persist `{noteId, driveFileId, md5}`
into the mapping (lines 257-265). -/
def pushUpsertWith (env : Drive) (note : Note) (fileId : String) (st : St) :
    Except RemoteErr Unit × St :=
  let st := logEvent st (Event.remoteUpdate fileId note)
  match env.updateFile fileId note with
  | Except.error e => (Except.error e, st)
  | Except.ok updated =>
      (Except.ok (),
        putDriveMap st
          { noteId := note.noteId, driveFileId := updated.id, md5 := updated.md5Checksum })

/-- `pushUpsert` from `src/sync/googleAuth.js` lines 230-266: prefer the
stored mapping; if it yields no (truthy) file id, query by note-id tag;
create only when neither yields a file id, else update; persist the
returned id and checksum into the mapping. -/
def pushUpsert (env : Drive) (note : Note) (st : St) :
    Except RemoteErr Unit × St :=
  match truthyStr ((getDriveMap st note.noteId).map (fun m => m.driveFileId)) with
  | some fileId => pushUpsertWith env note fileId st
  | none =>
      let st := logEvent st (Event.remoteFind note.noteId)
      match env.findNoteFileByNoteId note.noteId with
      | Except.error e => (Except.error e, st)
      | Except.ok found =>
          match truthyStr found with
          | some fileId => pushUpsertWith env note fileId st
          | none =>
              let st := logEvent st (Event.remoteCreate (noteFileName note.noteId) note)
              match env.createFile (noteFileName note.noteId) note with
              | Except.error e => (Except.error e, st)
              | Except.ok created =>
                  (Except.ok (),
                    putDriveMap st
                      { noteId := note.noteId, driveFileId := created.id,
                        md5 := created.md5Checksum })

/-- The delete tail of `pushDelete` once a remote file id is known:
issue the delete, treating a not-found failure as success, then remove
the mapping (lines 279-290). -/
def pushDeleteWith (env : Drive) (noteId fileId : String) (st : St) :
    Except RemoteErr Unit × St :=
  let st := logEvent st (Event.remoteDelete fileId)
  match env.deleteFile fileId with
  | Except.ok _ => (Except.ok (), deleteDriveMap st noteId)
  | Except.error RemoteErr.notFound => (Except.ok (), deleteDriveMap st noteId)
  | Except.error e => (Except.error e, st)

/-- `pushDelete` from `src/sync/googleAuth.js` lines 275-291: resolve
the file id from the mapping, else by tag query; delete remotely when
found (not-found is success); remove the mapping entry on success even
when no remote file was found. -/
def pushDelete (env : Drive) (noteId : String) (st : St) :
    Except RemoteErr Unit × St :=
  match truthyStr ((getDriveMap st noteId).map (fun m => m.driveFileId)) with
  | some fileId => pushDeleteWith env noteId fileId st
  | none =>
      let st := logEvent st (Event.remoteFind noteId)
      match env.findNoteFileByNoteId noteId with
      | Except.error e => (Except.error e, st)
      | Except.ok found =>
          match truthyStr found with
          | some fileId => pushDeleteWith env noteId fileId st
          | none => (Except.ok (), deleteDriveMap st noteId)

/-- The `for (const op of ops)` loop body of `pushOutbox` (lines
191-218), recursing over the drained snapshot and accumulating the
`pushed` counter.  An operation is deleted from the outbox only after
its remote effect succeeded (or it was found moot); a remote error
returns immediately, keeping the current state. -/
def pushOutboxLoop (env : Drive) : List OutboxOp → Nat → St →
    Except RemoteErr Nat × St
  | [], pushed, st => (Except.ok pushed, st)
  | op :: rest, pushed, st =>
      match op.type with
      | OpType.upsert =>
          match getNote st op.noteId with
          | none => pushOutboxLoop env rest pushed (deleteOp st op.opId)
          | some note =>
              if truthyNat note.deletedAtMs then
                match pushDelete env note.noteId st with
                | (Except.error e, st) => (Except.error e, st)
                | (Except.ok _, st) =>
                    pushOutboxLoop env rest (pushed + 1) (deleteOp st op.opId)
              else
                match pushUpsert env note st with
                | (Except.error e, st) => (Except.error e, st)
                | (Except.ok _, st) =>
                    pushOutboxLoop env rest (pushed + 1) (deleteOp st op.opId)
      | OpType.del =>
          match pushDelete env op.noteId st with
          | (Except.error e, st) => (Except.error e, st)
          | (Except.ok _, st) =>
              pushOutboxLoop env rest (pushed + 1) (deleteOp st op.opId)

/-- `pushOutbox` from `src/sync/googleAuth.js` lines 187-221. -/
def pushOutbox (env : Drive) (st : St) : Except RemoteErr Nat × St :=
  pushOutboxLoop env (listOps st) 0 st

/-- The remote effect the push loop attempts for one queued operation
before that operation is removed from the outbox (the body of the
`for (const op of ops)` loop, `src/sync/googleAuth.js` lines 191-217,
without the `deleteOp`/counter bookkeeping): a moot operation (note
gone) has no remote effect; a tombstoned note takes the delete path; a
live note the upsert path; a delete operation the delete path. -/
def opRemoteResult (env : Drive) (op : OutboxOp) (st : St) :
    Except RemoteErr Unit × St :=
  match op.type with
  | OpType.upsert =>
      match getNote st op.noteId with
      | none => (Except.ok (), st)
      | some note =>
          if truthyNat note.deletedAtMs then pushDelete env note.noteId st
          else pushUpsert env note st
  | OpType.del => pushDelete env op.noteId st


/-- The shared "ensure mapping exists" step (`src/sync/googleAuth.js`
lines 154-158 and 338-342): write `{noteId, driveFileId}` only when no
mapping with a truthy `driveFileId` is stored for this note. -/
def ensureDriveMapping (st : St) (noteId fileId : String) : St :=
  match truthyStr ((getDriveMap st noteId).map (fun m => m.driveFileId)) with
  | some _ => st
  | none => putDriveMap st { noteId := noteId, driveFileId := fileId }

/-- The body of the bootstrap `for (const f of files)` loop in
`ensureCursor` (lines 135-159): skip files not tagged as notes, download
and parse, merge last-write-wins, write locally only when remote wins,
then ensure the mapping. -/
def bootstrapFile (env : Drive) (f : RemoteFile) (st : St) :
    Except RemoteErr Unit × St :=
  if f.appKind ≠ some "note" ∨ truthyStr f.appNoteId = none then
    (Except.ok (), st)
  else
    let st := logEvent st (Event.remoteDownload f.id)
    match env.downloadFile f.id with
    | Except.error e => (Except.error e, st)
    | Except.ok raw =>
        match env.parseNote raw with
        | none => (Except.ok (), st)
        | some remoteNote =>
            let res := mergeLastWriteWins (getNote st remoteNote.noteId) remoteNote
            let st := if res.winner = Winner.remoteWin then putNote st res.merged else st
            (Except.ok (), ensureDriveMapping st remoteNote.noteId f.id)

/-- The bootstrap loop over all listed note files. -/
def bootstrapFiles (env : Drive) : List RemoteFile → St →
    Except RemoteErr Unit × St
  | [], st => (Except.ok (), st)
  | f :: rest, st =>
      match bootstrapFile env f st with
      | (Except.error e, st) => (Except.error e, st)
      | (Except.ok _, st) => bootstrapFiles env rest st

/-- `ensureCursor` from `src/sync/googleAuth.js` lines 128-165: return
the stored cursor when present; otherwise bootstrap-pull every remote
note file, then fetch and persist a fresh start page token. -/
def ensureCursor (env : Drive) (st : St) : Except RemoteErr String × St :=
  match truthyStr (getMeta st "drive.changeCursor") with
  | some cursor => (Except.ok cursor, st)
  | none =>
      let st := logEvent st Event.remoteListAll
      match env.listAllNoteFiles with
      | Except.error e => (Except.error e, st)
      | Except.ok files =>
          match bootstrapFiles env files st with
          | (Except.error e, st) => (Except.error e, st)
          | (Except.ok _, st) =>
              let st := logEvent st Event.remoteStartToken
              match env.getStartPageToken with
              | Except.error e => (Except.error e, st)
              | Except.ok tok => (Except.ok tok, setMeta st "drive.changeCursor" tok)

/-- The body of the `for (const ch of changes)` loop in `pullChanges`
(lines 307-343): skip entries without a file id, removed or trashed
entries, and entries not tagged as notes; otherwise download, parse
(skipping on parse failure), merge, write locally and count when remote
wins, then ensure the mapping.  Returns how much the `pulled` counter
advanced. -/
def pullChangeStep (env : Drive) (ch : Change) (st : St) :
    Except RemoteErr Nat × St :=
  match truthyStr ch.fileId with
  | none => (Except.ok 0, st)
  | some fileId =>
      if ch.removed || (match ch.file with
          | some f => f.trashed
          | none => false) then
        (Except.ok 0, st)
      else
        match ch.file with
        | none => (Except.ok 0, st)
        | some f =>
            if f.appKind ≠ some "note" ∨ truthyStr f.appNoteId = none then
              (Except.ok 0, st)
            else
              let st := logEvent st (Event.remoteDownload fileId)
              match env.downloadFile fileId with
              | Except.error e => (Except.error e, st)
              | Except.ok raw =>
                  match env.parseNote raw with
                  | none => (Except.ok 0, st)
                  | some remoteNote =>
                      let res := mergeLastWriteWins (getNote st remoteNote.noteId) remoteNote
                      let (cnt, st) :=
                        if res.winner = Winner.remoteWin then (1, putNote st res.merged)
                        else (0, st)
                      (Except.ok cnt, ensureDriveMapping st remoteNote.noteId fileId)

/-- The change-entry loop over one page, accumulating `pulled`. -/
def pullItems (env : Drive) : List Change → Nat → St →
    Except RemoteErr Nat × St
  | [], pulled, st => (Except.ok pulled, st)
  | ch :: rest, pulled, st =>
      match pullChangeStep env ch st with
      | (Except.error e, st) => (Except.error e, st)
      | (Except.ok c, st) => pullItems env rest (pulled + c) st

/-- The `while (true)` page loop of `pullChanges` (lines 303-358), with
explicit fuel for the page recursion (`none` = fuel exhausted).  After
the last page the cursor meta value is set to `newStartPageToken` when
provided, else to the last-used page token. -/
def pullLoop (env : Drive) : Nat → String → Nat → St →
    Option (Except RemoteErr Nat × St)
  | 0, _, _, _ => none
  | fuel + 1, cursor, pulled, st =>
      let st := logEvent st (Event.remoteListChanges cursor)
      match env.listChanges cursor with
      | Except.error e => some (Except.error e, st)
      | Except.ok data =>
          match pullItems env data.changes pulled st with
          | (Except.error e, st) => some (Except.error e, st)
          | (Except.ok pulled, st) =>
              match truthyStr data.nextPageToken with
              | some next => pullLoop env fuel next pulled st
              | none =>
                  match truthyStr data.newStartPageToken with
                  | some tok =>
                      some (Except.ok pulled, setMeta st "drive.changeCursor" tok)
                  | none =>
                      some (Except.ok pulled, setMeta st "drive.changeCursor" cursor)

/-- `pullChanges` from `src/sync/googleAuth.js` lines 299-361. -/
def pullChanges (env : Drive) (fuel : Nat) (st : St) :
    Option (Except RemoteErr Nat × St) :=
  match ensureCursor env st with
  | (Except.error e, st) => some (Except.error e, st)
  | (Except.ok cursor, st) => pullLoop env fuel cursor 0 st

/-- Count the events satisfying a predicate. -/
def countEv (p : Event → Bool) (evs : List Event) : Nat :=
  (evs.filter p).length

/-- Is this event a remote create call? -/
def isCreateEv : Event → Bool
  | Event.remoteCreate _ _ => true
  | _ => false

/-- Is this event a remote update call? -/
def isUpdateEv : Event → Bool
  | Event.remoteUpdate _ _ => true
  | _ => false

/-- Is this event a remote delete call? -/
def isDeleteEv : Event → Bool
  | Event.remoteDelete _ => true
  | _ => false

/-- Is this event a remote download call? -/
def isDownloadEv : Event → Bool
  | Event.remoteDownload _ => true
  | _ => false

/-- Is this event a local note write? -/
def isPutNoteEv : Event → Bool
  | Event.putNoteEv _ => true
  | _ => false

/-- Number of local note writes (notes created or overwritten) in a
trace. -/
def countPutNotes (evs : List Event) : Nat :=
  countEv isPutNoteEv evs

/-- Concrete note "a" with timestamp 100 (used in concrete runs). -/
def noteA : Note := { noteId := "a", updatedAtMs := some 100 }

/-- Concrete note "b" with timestamp 200 (used in concrete runs). -/
def noteB : Note := { noteId := "b", updatedAtMs := some 200 }

/-- The empty local state. -/
def stEmpty : St := {}

/-- Local state with a stored incremental cursor "T". -/
def stCursorT : St := { meta := [("drive.changeCursor", "T")] }

/-- Local state with a stored mapping for note "a" at file "fX". -/
def stMapped : St :=
  { driveMap := [{ noteId := "a", driveFileId := "fX" }] }

/-- Local state holding note "a" and two queued operations. -/
def stTwoOps : St :=
  { notes := [noteA]
    outbox := [{ opId := "op1", type := OpType.upsert, noteId := "a", queuedAtMs := 1 },
               { opId := "op2", type := OpType.del, noteId := "b", queuedAtMs := 2 }] }

/-- Local state for the stale-mapping pull run: note "a" exists locally
and its mapping points at remote file "X". -/
def stStale : St :=
  { notes := [noteA]
    driveMap := [{ noteId := "a", driveFileId := "X" }]
    meta := [("drive.changeCursor", "T")] }

/-- A change-feed entry carrying the removed flag. -/
def chRemoved : Change := { fileId := some "f9", removed := true }

/-- Environment where every push-side remote call succeeds. -/
def envOkPush : Drive :=
  { createFile := fun _ _ => Except.ok { id := "cid", md5Checksum := some "cm" }
    updateFile := fun fileId _ => Except.ok { id := fileId, md5Checksum := some "um" }
    deleteFile := fun _ => Except.ok ()
    downloadFile := fun _ => Except.error (RemoteErr.other "unused")
    parseNote := fun _ => none
    findNoteFileByNoteId := fun _ => Except.ok none
    listAllNoteFiles := Except.ok []
    getStartPageToken := Except.ok "T0"
    listChanges := fun _ => Except.ok {} }

/-- Environment whose remote delete fails with "File not found". -/
def envNotFound : Drive :=
  { createFile := fun _ _ => Except.error (RemoteErr.other "unused")
    updateFile := fun _ _ => Except.error (RemoteErr.other "unused")
    deleteFile := fun _ => Except.error RemoteErr.notFound
    downloadFile := fun _ => Except.error (RemoteErr.other "unused")
    parseNote := fun _ => none
    findNoteFileByNoteId := fun _ => Except.ok none
    listAllNoteFiles := Except.ok []
    getStartPageToken := Except.ok "T0"
    listChanges := fun _ => Except.ok {} }

/-- Bootstrap environment: no cursor work yet, exactly one remote note
file "f1" holding note "a"; the change feed is empty afterwards. -/
def envBootstrapOne : Drive :=
  { createFile := fun _ _ => Except.error (RemoteErr.other "unused")
    updateFile := fun _ _ => Except.error (RemoteErr.other "unused")
    deleteFile := fun _ => Except.error (RemoteErr.other "unused")
    downloadFile := fun fileId =>
      if fileId = "f1" then Except.ok "rawA" else Except.error RemoteErr.notFound
    parseNote := fun raw => if raw = "rawA" then some noteA else none
    findNoteFileByNoteId := fun _ => Except.ok none
    listAllNoteFiles :=
      Except.ok [{ id := "f1", appKind := some "note", appNoteId := some "a" }]
    getStartPageToken := Except.ok "T1"
    listChanges := fun _ => Except.ok { newStartPageToken := some "T1" } }

/-- Incremental environment delivering one change: file "f1" holding
note "b". -/
def envIncrementalOne : Drive :=
  { createFile := fun _ _ => Except.error (RemoteErr.other "unused")
    updateFile := fun _ _ => Except.error (RemoteErr.other "unused")
    deleteFile := fun _ => Except.error (RemoteErr.other "unused")
    downloadFile := fun fileId =>
      if fileId = "f1" then Except.ok "rawB" else Except.error RemoteErr.notFound
    parseNote := fun raw => if raw = "rawB" then some noteB else none
    findNoteFileByNoteId := fun _ => Except.ok none
    listAllNoteFiles := Except.ok []
    getStartPageToken := Except.ok "T0"
    listChanges := fun _ =>
      Except.ok
        { changes := [{ fileId := some "f1", removed := false
                        file := some { appKind := some "note", appNoteId := some "b" } }]
          newStartPageToken := some "T2" } }

/-- Incremental environment whose change feed call fails. -/
def envPullFail : Drive :=
  { createFile := fun _ _ => Except.error (RemoteErr.other "unused")
    updateFile := fun _ _ => Except.error (RemoteErr.other "unused")
    deleteFile := fun _ => Except.error (RemoteErr.other "unused")
    downloadFile := fun _ => Except.error (RemoteErr.other "unused")
    parseNote := fun _ => none
    findNoteFileByNoteId := fun _ => Except.ok none
    listAllNoteFiles := Except.ok []
    getStartPageToken := Except.ok "T0"
    listChanges := fun _ => Except.error (RemoteErr.other "boom") }

/-- Incremental environment delivering note "a" under a new remote file
id "Y" (the stored mapping points elsewhere). -/
def envStaleMapping : Drive :=
  { createFile := fun _ _ => Except.error (RemoteErr.other "unused")
    updateFile := fun _ _ => Except.error (RemoteErr.other "unused")
    deleteFile := fun _ => Except.error (RemoteErr.other "unused")
    downloadFile := fun fileId =>
      if fileId = "Y" then Except.ok "rawA" else Except.error RemoteErr.notFound
    parseNote := fun raw => if raw = "rawA" then some noteA else none
    findNoteFileByNoteId := fun _ => Except.ok none
    listAllNoteFiles := Except.ok []
    getStartPageToken := Except.ok "T0"
    listChanges := fun _ =>
      Except.ok
        { changes := [{ fileId := some "Y", removed := false
                        file := some { appKind := some "note", appNoteId := some "a" } }]
          newStartPageToken := some "T2" } }

/-- The state after running `pullChanges envIncrementalOne 1 stCursorT`. -/
def stIncAfter : St :=
  { notes := [noteB]
    outbox := []
    driveMap := [{ noteId := "b", driveFileId := "f1" }]
    meta := [("drive.changeCursor", "T2")]
    events := [Event.remoteListChanges "T", Event.remoteDownload "f1",
               Event.putNoteEv noteB,
               Event.putDriveMapEv { noteId := "b", driveFileId := "f1" },
               Event.setMetaEv "drive.changeCursor" "T2"] }

/-- The state after running `pullChanges envPullFail 1 stCursorT`. -/
def stPullFailAfter : St :=
  { stCursorT with events := [Event.remoteListChanges "T"] }
/-- C1: the conflict resolver returns winner=remote with merged=remote
when no local note exists; when the remote timestamp is strictly greater
it returns winner=remote with the remote fields overlaid onto the local
note (fields absent from remote keep their local values); otherwise,
including an exact tie, it returns winner=local with merged equal to the
local note unchanged. -/
theorem mergeLastWriteWins_cases (loc rem : Note) (l r : Nat)
    (hl : loc.updatedAtMs = some l) (hr : rem.updatedAtMs = some r) :
    (mergeLastWriteWins none rem).winner = Winner.remoteWin
    ∧ (mergeLastWriteWins none rem).merged = rem
    ∧ (r > l →
        (mergeLastWriteWins (some loc) rem).winner = Winner.remoteWin
        ∧ (mergeLastWriteWins (some loc) rem).merged =
            { noteId := rem.noteId
              title := match rem.title with
                | some t => some t
                | none => loc.title
              body := match rem.body with
                | some b => some b
                | none => loc.body
              updatedAtMs := match rem.updatedAtMs with
                | some u => some u
                | none => loc.updatedAtMs
              deletedAtMs := match rem.deletedAtMs with
                | some d => some d
                | none => loc.deletedAtMs })
    ∧ (r ≤ l →
        (mergeLastWriteWins (some loc) rem).winner = Winner.localWin
        ∧ (mergeLastWriteWins (some loc) rem).merged = loc) := by
  refine ⟨rfl, rfl, ?_, ?_⟩
  · intro hgt
    have : (mergeLastWriteWins (some loc) rem) =
        { winner := .remoteWin, merged := overlayNote loc rem } := by
      unfold mergeLastWriteWins
      simp [hl, hr, hgt]
    rw [this]
    exact ⟨rfl, rfl⟩
  · intro hle
    have : (mergeLastWriteWins (some loc) rem) =
        { winner := .localWin, merged := loc } := by
      unfold mergeLastWriteWins
      simp [hl, hr, Nat.not_lt.mpr hle]
    rw [this]
    exact ⟨rfl, rfl⟩

/-- Witness for `mergeLastWriteWins_cases` at a concrete input. -/
theorem mergeLastWriteWins_cases_witness :
    (mergeLastWriteWins
      (some { noteId := "a", updatedAtMs := some 1 })
      { noteId := "a", updatedAtMs := some 2 }).winner = Winner.remoteWin :=
  ((mergeLastWriteWins_cases
    { noteId := "a", updatedAtMs := some 1 }
    { noteId := "a", updatedAtMs := some 2 } 1 2 rfl rfl).2.2.1 (by decide)).1

/-- C2: for local note L and remote note R sharing a noteId, the merged
note's timestamp is `max L.updatedAtMs R.updatedAtMs`, and on an exact
tie the local note is kept. -/
theorem mergeLastWriteWins_max (L R : Note) (l r : Nat)
    (hid : L.noteId = R.noteId)
    (hl : L.updatedAtMs = some l) (hr : R.updatedAtMs = some r) :
    (mergeLastWriteWins (some L) R).merged.updatedAtMs = some (max l r)
    ∧ (l = r →
        (mergeLastWriteWins (some L) R).winner = Winner.localWin
        ∧ (mergeLastWriteWins (some L) R).merged = L) := by
  constructor
  · by_cases hgt : r > l
    · have : (mergeLastWriteWins (some L) R) =
          { winner := .remoteWin, merged := overlayNote L R } := by
        unfold mergeLastWriteWins
        simp [hl, hr, hgt]
      rw [this]
      simp [overlayNote, hr, Nat.max_eq_right (Nat.le_of_lt hgt)]
    · have : (mergeLastWriteWins (some L) R) =
          { winner := .localWin, merged := L } := by
        unfold mergeLastWriteWins
        simp [hl, hr, hgt]
      rw [this]
      simp [hl, Nat.max_eq_left (Nat.not_lt.mp hgt)]
  · intro heq
    have : (mergeLastWriteWins (some L) R) =
        { winner := .localWin, merged := L } := by
      unfold mergeLastWriteWins
      simp [hl, hr, heq]
    rw [this]
    exact ⟨rfl, rfl⟩

/-- Witness for `mergeLastWriteWins_max` at a concrete input. -/
theorem mergeLastWriteWins_max_witness :
    (mergeLastWriteWins
      (some { noteId := "n", updatedAtMs := some 3 })
      { noteId := "n", updatedAtMs := some 5 }).merged.updatedAtMs
      = some (max 3 5) :=
  (mergeLastWriteWins_max
    { noteId := "n", updatedAtMs := some 3 }
    { noteId := "n", updatedAtMs := some 5 } 3 5 rfl rfl rfl).1

/-- C10: with a local note present, a missing or zero `updatedAtMs` on
either side is coerced to 0 before comparing: a remote note without a
positive timestamp never wins against an existing local note, and a
local note without a positive timestamp loses to every remote note whose
timestamp is greater than 0. -/
theorem mergeLastWriteWins_falsy_coercion (loc rem : Note) :
    ((rem.updatedAtMs = none ∨ rem.updatedAtMs = some 0) →
        (mergeLastWriteWins (some loc) rem).winner = Winner.localWin
        ∧ (mergeLastWriteWins (some loc) rem).merged = loc)
    ∧ (∀ r : Nat, (loc.updatedAtMs = none ∨ loc.updatedAtMs = some 0) →
        rem.updatedAtMs = some r → 0 < r →
        (mergeLastWriteWins (some loc) rem).winner = Winner.remoteWin) := by
  constructor
  · intro hrem
    have hr0 : rem.updatedAtMs.getD 0 = 0 := by
      rcases hrem with h | h <;> simp [h]
    have : (mergeLastWriteWins (some loc) rem) =
        { winner := .localWin, merged := loc } := by
      unfold mergeLastWriteWins
      simp [hr0]
    rw [this]
    exact ⟨rfl, rfl⟩
  · intro r hloc hr hpos
    have hl0 : loc.updatedAtMs.getD 0 = 0 := by
      rcases hloc with h | h <;> simp [h]
    unfold mergeLastWriteWins
    simp [hl0, hr, hpos]

/-- Witness for `mergeLastWriteWins_falsy_coercion` at a concrete input. -/
theorem mergeLastWriteWins_falsy_coercion_witness :
    (mergeLastWriteWins
      (some { noteId := "a", updatedAtMs := some 7 })
      { noteId := "a" : Note }).winner = Winner.localWin
    ∧ (mergeLastWriteWins
      (some { noteId := "a", updatedAtMs := some 7 })
      { noteId := "a" : Note }).merged
        = { noteId := "a", updatedAtMs := some 7 } :=
  (mergeLastWriteWins_falsy_coercion
    { noteId := "a", updatedAtMs := some 7 }
    { noteId := "a" : Note }).1 (Or.inl rfl)

/-- Remote push helpers never touch the outbox store. -/
lemma pushUpsertWith_outbox (env : Drive) (note : Note) (fileId : String) (st : St) :
    ((pushUpsertWith env note fileId st).2).outbox = st.outbox := by
  simp only [pushUpsertWith]
  split <;> simp [logEvent, putDriveMap]

/-- `pushUpsert` never touches the outbox store. -/
lemma pushUpsert_outbox (env : Drive) (note : Note) (st : St) :
    ((pushUpsert env note st).2).outbox = st.outbox := by
  simp only [pushUpsert]
  split
  · exact pushUpsertWith_outbox env note _ st
  · split
    · simp [logEvent]
    · split
      · rw [pushUpsertWith_outbox]
        simp [logEvent]
      · split <;> simp [logEvent, putDriveMap]

/-- `pushDeleteWith` never touches the outbox store. -/
lemma pushDeleteWith_outbox (env : Drive) (noteId fileId : String) (st : St) :
    ((pushDeleteWith env noteId fileId st).2).outbox = st.outbox := by
  simp only [pushDeleteWith]
  split <;> simp [logEvent, deleteDriveMap]

/-- `pushDelete` never touches the outbox store. -/
lemma pushDelete_outbox (env : Drive) (noteId : String) (st : St) :
    ((pushDelete env noteId st).2).outbox = st.outbox := by
  simp only [pushDelete]
  split
  · exact pushDeleteWith_outbox env noteId _ st
  · split
    · simp [logEvent]
    · split
      · rw [pushDeleteWith_outbox]
        simp [logEvent]
      · simp [logEvent, deleteDriveMap]

/-- Deleting the head operation of the drained snapshot from the outbox
leaves exactly the remaining snapshot, given unique operation ids. -/
lemma deleteOp_head (op : OutboxOp) (rest : List OutboxOp) (st : St)
    (hout : st.outbox = op :: rest)
    (hni : op.opId ∉ rest.map (fun o => o.opId)) :
    (deleteOp st op.opId).outbox = rest := by
  simp only [deleteOp, hout]
  have hhead : (op.opId != op.opId) = false := by simp
  rw [List.filter_cons_of_neg (by simp [hhead])]
  apply List.filter_eq_self.mpr
  intro o ho
  refine bne_iff_ne.mpr (fun h => hni ?_)
  exact h ▸ List.mem_map_of_mem (fun o => o.opId) ho

/-- Invariant of the push loop: the final outbox is the unprocessed
suffix of the drained snapshot; on success nothing remains; on an error
the error is exactly the failing remote result of the first unprocessed
operation, evaluated at the state reached before it. -/
lemma pushOutboxLoop_outbox (env : Drive) (ops : List OutboxOp) :
    ∀ (pushed : Nat) (st : St) (res : Except RemoteErr Nat) (st' : St),
      st.outbox = ops →
      (ops.map (fun o => o.opId)).Nodup →
      pushOutboxLoop env ops pushed st = (res, st') →
      ∃ k, st'.outbox = ops.drop k
        ∧ (∀ e, res = Except.error e →
            ∃ (hk : k < ops.length) (stk : St),
              stk.outbox = ops.drop k
              ∧ opRemoteResult env (ops.get ⟨k, hk⟩) stk = (Except.error e, st'))
        ∧ (∀ n, res = Except.ok n → st'.outbox = []) := by
  induction ops with
  | nil =>
      intro pushed st res st' hout _ heq
      simp only [pushOutboxLoop] at heq
      obtain ⟨hres, hst⟩ := Prod.mk.injEq .. ▸ heq
      refine ⟨0, ?_, ?_, ?_⟩
      · rw [← hst, hout]
        simp
      · intro e he
        rw [← hres] at he
        cases he
      · intro n _
        rw [← hst, hout]
  | cons op rest ih =>
      intro pushed st res st' hout hnd heq
      simp only [List.map_cons, List.nodup_cons] at hnd
      obtain ⟨hni, hnd'⟩ := hnd
      -- shared continuation: head op was applied and removed, recurse on rest
      have hstep : ∀ (p : Nat) (st2 : St), st2.outbox = op :: rest →
          pushOutboxLoop env rest p (deleteOp st2 op.opId) = (res, st') →
          ∃ k, st'.outbox = (op :: rest).drop k
            ∧ (∀ e, res = Except.error e →
                ∃ (hk : k < (op :: rest).length) (stk : St),
                  stk.outbox = (op :: rest).drop k
                  ∧ opRemoteResult env ((op :: rest).get ⟨k, hk⟩) stk
                      = (Except.error e, st'))
            ∧ (∀ n, res = Except.ok n → st'.outbox = []) := by
        intro p st2 hout2 heq2
        have h1 : (deleteOp st2 op.opId).outbox = rest :=
          deleteOp_head op rest st2 hout2 hni
        obtain ⟨k, hk1, hk2, hk3⟩ := ih p (deleteOp st2 op.opId) res st' h1 hnd' heq2
        refine ⟨k + 1, by simpa using hk1, ?_, hk3⟩
        intro e he
        obtain ⟨hk, stk, hs1, hs2⟩ := hk2 e he
        refine ⟨by simpa using Nat.succ_lt_succ hk, stk, by simpa using hs1, ?_⟩
        exact hs2
      -- shared error exit: the head op's remote call failed, state kept
      have herr : ∀ (e : RemoteErr) (st2 : St), st2.outbox = op :: rest →
          res = Except.error e → st' = st2 →
          opRemoteResult env op st = (Except.error e, st2) →
          ∃ k, st'.outbox = (op :: rest).drop k
            ∧ (∀ e2, res = Except.error e2 →
                ∃ (hk : k < (op :: rest).length) (stk : St),
                  stk.outbox = (op :: rest).drop k
                  ∧ opRemoteResult env ((op :: rest).get ⟨k, hk⟩) stk
                      = (Except.error e2, st'))
            ∧ (∀ n, res = Except.ok n → st'.outbox = []) := by
        intro e st2 hout2 hres hst hop
        refine ⟨0, by rw [hst, hout2]; simp, ?_, ?_⟩
        · intro e2 he2
          rw [hres] at he2
          injection he2 with he2
          subst he2
          refine ⟨by simp, st, by rw [hout]; simp, ?_⟩
          rw [← hst] at hop
          exact hop
        · intro n hn
          rw [hres] at hn
          cases hn
      simp only [pushOutboxLoop] at heq
      split at heq
      · -- op.type = upsert
        rename_i hty
        split at heq
        · -- note no longer exists: moot, operation discarded
          exact hstep pushed st hout heq
        · -- note exists
          rename_i note hg
          split at heq
          · -- tombstoned: delete path
            rename_i htomb
            split at heq
            · rename_i e st2 hpd
              have hout2 : st2.outbox = op :: rest := by
                have h3 := pushDelete_outbox env note.noteId st
                rw [hpd] at h3
                rw [h3, hout]
              obtain ⟨hres, hst⟩ := Prod.mk.injEq .. ▸ heq
              refine herr e st2 hout2 hres.symm hst.symm ?_
              simp [opRemoteResult, hty, hg, htomb, hpd]
            · rename_i u st2 hpd
              have hout2 : st2.outbox = op :: rest := by
                have h3 := pushDelete_outbox env note.noteId st
                rw [hpd] at h3
                rw [h3, hout]
              exact hstep (pushed + 1) st2 hout2 heq
          · -- live note: upsert path
            rename_i htomb
            split at heq
            · rename_i e st2 hpu
              have hout2 : st2.outbox = op :: rest := by
                have h3 := pushUpsert_outbox env note st
                rw [hpu] at h3
                rw [h3, hout]
              obtain ⟨hres, hst⟩ := Prod.mk.injEq .. ▸ heq
              refine herr e st2 hout2 hres.symm hst.symm ?_
              simp [opRemoteResult, hty, hg, htomb, hpu]
            · rename_i u st2 hpu
              have hout2 : st2.outbox = op :: rest := by
                have h3 := pushUpsert_outbox env note st
                rw [hpu] at h3
                rw [h3, hout]
              exact hstep (pushed + 1) st2 hout2 heq
      · -- op.type = del
        rename_i hty
        split at heq
        · rename_i e st2 hpd
          have hout2 : st2.outbox = op :: rest := by
            have h3 := pushDelete_outbox env op.noteId st
            rw [hpd] at h3
            rw [h3, hout]
          obtain ⟨hres, hst⟩ := Prod.mk.injEq .. ▸ heq
          refine herr e st2 hout2 hres.symm hst.symm ?_
          simp [opRemoteResult, hty, hpd]
        · rename_i u st2 hpd
          have hout2 : st2.outbox = op :: rest := by
            have h3 := pushDelete_outbox env op.noteId st
            rw [hpd] at h3
            rw [h3, hout]
          exact hstep (pushed + 1) st2 hout2 heq

/-- C4: an outbox operation is removed only once its remote effect is
confirmed (or it is moot): a successful push drains the whole outbox,
and a push aborted by an unrecoverable remote error identifies a
position k (in queued order) such that the propagated error is exactly
the failing remote result of the k-th operation, evaluated at the state
reached after the first k operations (whose queue is still operations k
and later) — so the first k operations are removed while the failing
operation, unconfirmed, and all later ones remain queued. -/
theorem pushOutbox_atomic (env : Drive) (st : St)
    (hnd : (st.outbox.map (fun o => o.opId)).Nodup) :
    (∀ e st', pushOutbox env st = (Except.error e, st') →
        ∃ (k : Nat) (hk : k < st.outbox.length),
          st'.outbox = st.outbox.drop k
          ∧ ∃ stk : St, stk.outbox = st.outbox.drop k
              ∧ opRemoteResult env (st.outbox.get ⟨k, hk⟩) stk
                  = (Except.error e, st'))
    ∧ (∀ n st', pushOutbox env st = (Except.ok n, st') → st'.outbox = []) := by
  constructor
  · intro e st' h
    have h' : pushOutboxLoop env st.outbox 0 st = (Except.error e, st') := h
    obtain ⟨k, hk1, hk2, _⟩ :=
      pushOutboxLoop_outbox env st.outbox 0 st (Except.error e) st' rfl hnd h'
    obtain ⟨hk, stk, hs1, hs2⟩ := hk2 e rfl
    exact ⟨k, hk, hk1, stk, hs1, hs2⟩
  · intro n st' h
    have h' : pushOutboxLoop env st.outbox 0 st = (Except.ok n, st') := h
    obtain ⟨k, _, _, hk3⟩ :=
      pushOutboxLoop_outbox env st.outbox 0 st (Except.ok n) st' rfl hnd h'
    exact hk3 n rfl

/-- Witness for `pushOutbox_atomic`: a concrete two-operation push that
succeeds and drains the outbox. -/
theorem pushOutbox_atomic_witness :
    ((pushOutbox envOkPush stTwoOps).2).outbox = [] :=
  (pushOutbox_atomic envOkPush stTwoOps (by decide)).2 2
    (pushOutbox envOkPush stTwoOps).2 (by rfl)

/-- Dropping the pre-existing trace prefix leaves the new events. -/
@[simp] lemma drop_events (st : St) (l : List Event) :
    (st.events ++ l).drop st.events.length = l :=
  List.drop_left st.events l

/-- A freshly written mapping is what `getDriveMap` returns. -/
lemma getDriveMap_putDriveMap (st : St) (m : DriveMapping) :
    getDriveMap (putDriveMap st m) m.noteId = some m := by
  simp only [getDriveMap, putDriveMap]
  rw [List.find?_cons_of_pos _ (by simp)]

/-- After `deleteDriveMap` the mapping entry is gone. -/
lemma getDriveMap_deleteDriveMap (st : St) (noteId : String) :
    getDriveMap (deleteDriveMap st noteId) noteId = none := by
  simp only [getDriveMap, deleteDriveMap]
  apply List.find?_eq_none.mpr
  intro m hm
  have h2 := (List.mem_filter.mp hm).2
  simp only [bne_iff_ne, ne_eq] at h2
  simp [h2]

/-- C5: on a pushed upsert, a remote create is issued only when the
stored mapping is absent and the tag query finds no file; a file id from
the mapping, or recovered by the query, leads to a remote update to that
id instead; and on success the id and checksum returned by the remote
call are persisted into the mapping (on failure the mapping is
untouched). -/
theorem pushUpsert_create_vs_update (env : Drive) (note : Note) (st : St)
    (res : Except RemoteErr Unit) (st' : St)
    (heq : pushUpsert env note st = (res, st')) :
    (countEv isCreateEv (st'.events.drop st.events.length) ≠ 0 →
        truthyStr ((getDriveMap st note.noteId).map (fun m => m.driveFileId)) = none
        ∧ ∃ found, env.findNoteFileByNoteId note.noteId = Except.ok found
            ∧ truthyStr found = none)
    ∧ (∀ f, truthyStr ((getDriveMap st note.noteId).map (fun m => m.driveFileId)) = some f →
        countEv isUpdateEv (st'.events.drop st.events.length) = 1
        ∧ Event.remoteUpdate f note ∈ st'.events.drop st.events.length
        ∧ countEv isCreateEv (st'.events.drop st.events.length) = 0)
    ∧ (∀ found f,
        truthyStr ((getDriveMap st note.noteId).map (fun m => m.driveFileId)) = none →
        env.findNoteFileByNoteId note.noteId = Except.ok found →
        truthyStr found = some f →
        Event.remoteUpdate f note ∈ st'.events.drop st.events.length
        ∧ countEv isCreateEv (st'.events.drop st.events.length) = 0)
    ∧ (∀ e, res = Except.error e → st'.driveMap = st.driveMap)
    ∧ (res = Except.ok () →
        ∃ X : CreatedFile,
          (env.createFile (noteFileName note.noteId) note = Except.ok X
            ∨ ∃ f, env.updateFile f note = Except.ok X)
          ∧ getDriveMap st' note.noteId =
              some { noteId := note.noteId, driveFileId := X.id, md5 := X.md5Checksum }) := by
  simp only [pushUpsert, pushUpsertWith] at heq
  split at heq
  · -- mapping has a truthy file id
    rename_i fileId hmid
    split at heq
    · -- remote update failed
      rename_i e hupd
      obtain ⟨h1, h2⟩ := Prod.mk.injEq .. ▸ heq
      subst h1; subst h2
      refine ⟨?_, ?_, ?_, ?_, ?_⟩
      · intro h
        exfalso
        simp [logEvent, countEv, isCreateEv] at h
      · intro f hf
        rw [hmid] at hf
        obtain rfl : fileId = f := by simpa using hf
        simp [logEvent, countEv, isUpdateEv, isCreateEv]
      · intro found f hnone _ _
        rw [hmid] at hnone
        cases hnone
      · intro e' _
        simp [logEvent]
      · intro hok
        cases hok
    · -- remote update succeeded
      rename_i u hupd
      obtain ⟨h1, h2⟩ := Prod.mk.injEq .. ▸ heq
      subst h1; subst h2
      refine ⟨?_, ?_, ?_, ?_, ?_⟩
      · intro h
        exfalso
        simp [logEvent, putDriveMap, countEv, isCreateEv] at h
      · intro f hf
        rw [hmid] at hf
        obtain rfl : fileId = f := by simpa using hf
        simp [logEvent, putDriveMap, countEv, isUpdateEv, isCreateEv]
      · intro found f hnone _ _
        rw [hmid] at hnone
        cases hnone
      · intro e' he
        cases he
      · intro _
        exact ⟨u, Or.inr ⟨fileId, hupd⟩, getDriveMap_putDriveMap _ _⟩
  · -- mapping absent or empty: query by tag
    rename_i hmid
    split at heq
    · -- tag query failed
      rename_i e hfind
      obtain ⟨h1, h2⟩ := Prod.mk.injEq .. ▸ heq
      subst h1; subst h2
      refine ⟨?_, ?_, ?_, ?_, ?_⟩
      · intro h
        exfalso
        simp [logEvent, countEv, isCreateEv] at h
      · intro f hf
        rw [hmid] at hf
        cases hf
      · intro found f _ hfind' _
        rw [hfind] at hfind'
        cases hfind'
      · intro e' _
        simp [logEvent]
      · intro hok
        cases hok
    · -- tag query returned
      rename_i found0 hfind
      split at heq
      · -- query recovered a truthy file id: update path
        rename_i fileId htr
        split at heq
        · rename_i e hupd
          obtain ⟨h1, h2⟩ := Prod.mk.injEq .. ▸ heq
          subst h1; subst h2
          refine ⟨?_, ?_, ?_, ?_, ?_⟩
          · intro h
            exfalso
            simp [logEvent, countEv, isCreateEv] at h
          · intro f hf
            rw [hmid] at hf
            cases hf
          · intro found f _ hfind' htr'
            rw [hfind] at hfind'
            obtain rfl : found = found0 := by simpa using hfind'.symm
            rw [htr] at htr'
            obtain rfl : fileId = f := by simpa using htr'
            simp [logEvent, countEv, isUpdateEv, isCreateEv]
          · intro e' _
            simp [logEvent]
          · intro hok
            cases hok
        · rename_i u hupd
          obtain ⟨h1, h2⟩ := Prod.mk.injEq .. ▸ heq
          subst h1; subst h2
          refine ⟨?_, ?_, ?_, ?_, ?_⟩
          · intro h
            exfalso
            simp [logEvent, putDriveMap, countEv, isCreateEv] at h
          · intro f hf
            rw [hmid] at hf
            cases hf
          · intro found f _ hfind' htr'
            rw [hfind] at hfind'
            obtain rfl : found = found0 := by simpa using hfind'.symm
            rw [htr] at htr'
            obtain rfl : fileId = f := by simpa using htr'
            simp [logEvent, putDriveMap, countEv, isUpdateEv, isCreateEv]
          · intro e' he
            cases he
          · intro _
            exact ⟨u, Or.inr ⟨fileId, hupd⟩, getDriveMap_putDriveMap _ _⟩
      · -- nothing found anywhere: create path
        rename_i htr
        split at heq
        · rename_i e hcr
          obtain ⟨h1, h2⟩ := Prod.mk.injEq .. ▸ heq
          subst h1; subst h2
          refine ⟨?_, ?_, ?_, ?_, ?_⟩
          · intro _
            exact ⟨hmid, found0, hfind, htr⟩
          · intro f hf
            rw [hmid] at hf
            cases hf
          · intro found f _ hfind' htr'
            rw [hfind] at hfind'
            obtain rfl : found = found0 := by simpa using hfind'.symm
            rw [htr] at htr'
            cases htr'
          · intro e' _
            simp [logEvent]
          · intro hok
            cases hok
        · rename_i u hcr
          obtain ⟨h1, h2⟩ := Prod.mk.injEq .. ▸ heq
          subst h1; subst h2
          refine ⟨?_, ?_, ?_, ?_, ?_⟩
          · intro _
            exact ⟨hmid, found0, hfind, htr⟩
          · intro f hf
            rw [hmid] at hf
            cases hf
          · intro found f _ hfind' htr'
            rw [hfind] at hfind'
            obtain rfl : found = found0 := by simpa using hfind'.symm
            rw [htr] at htr'
            cases htr'
          · intro e' he
            cases he
          · intro _
            exact ⟨u, Or.inl hcr, getDriveMap_putDriveMap _ _⟩

/-- Witness for `pushUpsert_create_vs_update`: with a stored mapping the
push issues exactly one remote update and no create. -/
theorem pushUpsert_create_vs_update_witness :
    countEv isUpdateEv
        (((pushUpsert envOkPush noteA stMapped).2).events.drop stMapped.events.length) = 1
      ∧ Event.remoteUpdate "fX" noteA
          ∈ ((pushUpsert envOkPush noteA stMapped).2).events.drop stMapped.events.length
      ∧ countEv isCreateEv
          (((pushUpsert envOkPush noteA stMapped).2).events.drop stMapped.events.length) = 0 :=
  (pushUpsert_create_vs_update envOkPush noteA stMapped
      (pushUpsert envOkPush noteA stMapped).1
      (pushUpsert envOkPush noteA stMapped).2 rfl).2.1 "fX" rfl

/-- C6: on a pushed delete, the remote file id is resolved from the
mapping, else by tag query, and a remote delete is issued when one is
found; a not-found failure of the remote delete counts as success; any
other failure propagates and leaves the mapping in place; on success
(including when no remote file id was found at all) the mapping entry
for the note is removed. -/
theorem pushDelete_spec (env : Drive) (noteId : String) (st : St)
    (res : Except RemoteErr Unit) (st' : St)
    (heq : pushDelete env noteId st = (res, st')) :
    (∀ f, truthyStr ((getDriveMap st noteId).map (fun m => m.driveFileId)) = some f →
        Event.remoteDelete f ∈ st'.events.drop st.events.length)
    ∧ (∀ found f,
        truthyStr ((getDriveMap st noteId).map (fun m => m.driveFileId)) = none →
        env.findNoteFileByNoteId noteId = Except.ok found →
        truthyStr found = some f →
        Event.remoteDelete f ∈ st'.events.drop st.events.length)
    ∧ (∀ f, truthyStr ((getDriveMap st noteId).map (fun m => m.driveFileId)) = some f →
        env.deleteFile f = Except.error RemoteErr.notFound →
        res = Except.ok ())
    ∧ (∀ found f,
        truthyStr ((getDriveMap st noteId).map (fun m => m.driveFileId)) = none →
        env.findNoteFileByNoteId noteId = Except.ok found →
        truthyStr found = some f →
        env.deleteFile f = Except.error RemoteErr.notFound →
        res = Except.ok ())
    ∧ (∀ e, res = Except.error e → st'.driveMap = st.driveMap)
    ∧ (res = Except.ok () → getDriveMap st' noteId = none)
    ∧ (∀ found,
        truthyStr ((getDriveMap st noteId).map (fun m => m.driveFileId)) = none →
        env.findNoteFileByNoteId noteId = Except.ok found →
        truthyStr found = none →
        res = Except.ok ()
        ∧ countEv isDeleteEv (st'.events.drop st.events.length) = 0)
    ∧ (∀ f msg,
        truthyStr ((getDriveMap st noteId).map (fun m => m.driveFileId)) = some f →
        env.deleteFile f = Except.error (RemoteErr.other msg) →
        res = Except.error (RemoteErr.other msg))
    ∧ (∀ found f msg,
        truthyStr ((getDriveMap st noteId).map (fun m => m.driveFileId)) = none →
        env.findNoteFileByNoteId noteId = Except.ok found →
        truthyStr found = some f →
        env.deleteFile f = Except.error (RemoteErr.other msg) →
        res = Except.error (RemoteErr.other msg)) := by
  simp only [pushDelete, pushDeleteWith] at heq
  split at heq
  · -- mapping has a truthy file id
    rename_i fileId hmid
    split at heq
    · -- remote delete succeeded
      rename_i u hdel
      obtain ⟨h1, h2⟩ := Prod.mk.injEq .. ▸ heq
      subst h1; subst h2
      refine ⟨?_, ?_, ?_, ?_, ?_, ?_, ?_, ?_, ?_⟩
      · intro f hf
        rw [hmid] at hf
        obtain rfl : fileId = f := by simpa using hf
        simp [logEvent, deleteDriveMap]
      · intro found f hnone _ _
        rw [hmid] at hnone
        cases hnone
      · intro f _ _
        rfl
      · intro found f _ _ _ _
        rfl
      · intro e he
        cases he
      · intro _
        exact getDriveMap_deleteDriveMap _ noteId
      · intro found hnone _ _
        rw [hmid] at hnone
        cases hnone
      · intro f msg hf hdel'
        rw [hmid] at hf
        obtain rfl : fileId = f := by simpa using hf
        rw [hdel] at hdel'
        cases hdel'
      · intro found f msg hnone _ _ _
        rw [hmid] at hnone
        cases hnone
    · -- remote delete failed with not-found: treated as success
      rename_i hdel
      obtain ⟨h1, h2⟩ := Prod.mk.injEq .. ▸ heq
      subst h1; subst h2
      refine ⟨?_, ?_, ?_, ?_, ?_, ?_, ?_, ?_, ?_⟩
      · intro f hf
        rw [hmid] at hf
        obtain rfl : fileId = f := by simpa using hf
        simp [logEvent, deleteDriveMap]
      · intro found f hnone _ _
        rw [hmid] at hnone
        cases hnone
      · intro f _ _
        rfl
      · intro found f _ _ _ _
        rfl
      · intro e he
        cases he
      · intro _
        exact getDriveMap_deleteDriveMap _ noteId
      · intro found hnone _ _
        rw [hmid] at hnone
        cases hnone
      · intro f msg hf hdel'
        rw [hmid] at hf
        obtain rfl : fileId = f := by simpa using hf
        rw [hdel] at hdel'
        simp at hdel'
      · intro found f msg hnone _ _ _
        rw [hmid] at hnone
        cases hnone
    · -- remote delete failed otherwise: propagate, keep mapping
      rename_i e hne hdel
      obtain ⟨h1, h2⟩ := Prod.mk.injEq .. ▸ heq
      subst h1; subst h2
      refine ⟨?_, ?_, ?_, ?_, ?_, ?_, ?_, ?_, ?_⟩
      · intro f hf
        rw [hmid] at hf
        obtain rfl : fileId = f := by simpa using hf
        simp [logEvent]
      · intro found f hnone _ _
        rw [hmid] at hnone
        cases hnone
      · intro f hf hdel'
        rw [hmid] at hf
        obtain rfl : fileId = f := by simpa using hf
        rw [hdel] at hdel'
        exfalso
        exact hne (by simpa using hdel')
      · intro found f hnone _ _ _
        rw [hmid] at hnone
        cases hnone
      · intro e' _
        simp [logEvent]
      · intro hok
        cases hok
      · intro found hnone _ _
        rw [hmid] at hnone
        cases hnone
      · intro f msg hf hdel'
        rw [hmid] at hf
        obtain rfl : fileId = f := by simpa using hf
        rw [hdel] at hdel'
        exact hdel'
      · intro found f msg hnone _ _ _
        rw [hmid] at hnone
        cases hnone
  · -- mapping absent or empty: query by tag
    rename_i hmid
    split at heq
    · -- tag query failed
      rename_i e hfind
      obtain ⟨h1, h2⟩ := Prod.mk.injEq .. ▸ heq
      subst h1; subst h2
      refine ⟨?_, ?_, ?_, ?_, ?_, ?_, ?_, ?_, ?_⟩
      · intro f hf
        rw [hmid] at hf
        cases hf
      · intro found f _ hfind' _
        rw [hfind] at hfind'
        cases hfind'
      · intro f hf _
        rw [hmid] at hf
        cases hf
      · intro found f _ hfind' _ _
        rw [hfind] at hfind'
        cases hfind'
      · intro e' _
        simp [logEvent]
      · intro hok
        cases hok
      · intro found _ hfind' _
        rw [hfind] at hfind'
        cases hfind'
      · intro f msg hf _
        rw [hmid] at hf
        cases hf
      · intro found f msg _ hfind' _ _
        rw [hfind] at hfind'
        cases hfind'
    · -- tag query returned
      rename_i found0 hfind
      split at heq
      · -- query recovered a truthy file id: delete path
        rename_i fileId htr
        split at heq
        · rename_i u hdel
          obtain ⟨h1, h2⟩ := Prod.mk.injEq .. ▸ heq
          subst h1; subst h2
          refine ⟨?_, ?_, ?_, ?_, ?_, ?_, ?_, ?_, ?_⟩
          · intro f hf
            rw [hmid] at hf
            cases hf
          · intro found f _ hfind' htr'
            rw [hfind] at hfind'
            obtain rfl : found = found0 := by simpa using hfind'.symm
            rw [htr] at htr'
            obtain rfl : fileId = f := by simpa using htr'
            simp [logEvent, deleteDriveMap]
          · intro f _ _
            rfl
          · intro found f _ _ _ _
            rfl
          · intro e he
            cases he
          · intro _
            exact getDriveMap_deleteDriveMap _ noteId
          · intro found _ hfind' htr'
            rw [hfind] at hfind'
            obtain rfl : found = found0 := by simpa using hfind'.symm
            rw [htr] at htr'
            cases htr'
          · intro f msg hf _
            rw [hmid] at hf
            cases hf
          · intro found f msg _ hfind' htr' hdel'
            rw [hfind] at hfind'
            obtain rfl : found = found0 := by simpa using hfind'.symm
            rw [htr] at htr'
            obtain rfl : fileId = f := by simpa using htr'
            rw [hdel] at hdel'
            cases hdel'
        · rename_i hdel
          obtain ⟨h1, h2⟩ := Prod.mk.injEq .. ▸ heq
          subst h1; subst h2
          refine ⟨?_, ?_, ?_, ?_, ?_, ?_, ?_, ?_, ?_⟩
          · intro f hf
            rw [hmid] at hf
            cases hf
          · intro found f _ hfind' htr'
            rw [hfind] at hfind'
            obtain rfl : found = found0 := by simpa using hfind'.symm
            rw [htr] at htr'
            obtain rfl : fileId = f := by simpa using htr'
            simp [logEvent, deleteDriveMap]
          · intro f _ _
            rfl
          · intro found f _ _ _ _
            rfl
          · intro e he
            cases he
          · intro _
            exact getDriveMap_deleteDriveMap _ noteId
          · intro found _ hfind' htr'
            rw [hfind] at hfind'
            obtain rfl : found = found0 := by simpa using hfind'.symm
            rw [htr] at htr'
            cases htr'
          · intro f msg hf _
            rw [hmid] at hf
            cases hf
          · intro found f msg _ hfind' htr' hdel'
            rw [hfind] at hfind'
            obtain rfl : found = found0 := by simpa using hfind'.symm
            rw [htr] at htr'
            obtain rfl : fileId = f := by simpa using htr'
            rw [hdel] at hdel'
            simp at hdel'
        · rename_i e hne hdel
          obtain ⟨h1, h2⟩ := Prod.mk.injEq .. ▸ heq
          subst h1; subst h2
          refine ⟨?_, ?_, ?_, ?_, ?_, ?_, ?_, ?_, ?_⟩
          · intro f hf
            rw [hmid] at hf
            cases hf
          · intro found f _ hfind' htr'
            rw [hfind] at hfind'
            obtain rfl : found = found0 := by simpa using hfind'.symm
            rw [htr] at htr'
            obtain rfl : fileId = f := by simpa using htr'
            simp [logEvent]
          · intro f hf _
            rw [hmid] at hf
            cases hf
          · intro found f _ hfind' htr' hdel'
            rw [hfind] at hfind'
            obtain rfl : found = found0 := by simpa using hfind'.symm
            rw [htr] at htr'
            obtain rfl : fileId = f := by simpa using htr'
            rw [hdel] at hdel'
            exfalso
            exact hne (by simpa using hdel')
          · intro e' _
            simp [logEvent]
          · intro hok
            cases hok
          · intro found _ hfind' htr'
            rw [hfind] at hfind'
            obtain rfl : found = found0 := by simpa using hfind'.symm
            rw [htr] at htr'
            cases htr'
          · intro f msg hf _
            rw [hmid] at hf
            cases hf
          · intro found f msg _ hfind' htr' hdel'
            rw [hfind] at hfind'
            obtain rfl : found = found0 := by simpa using hfind'.symm
            rw [htr] at htr'
            obtain rfl : fileId = f := by simpa using htr'
            rw [hdel] at hdel'
            exact hdel'
      · -- nothing found anywhere: still remove the mapping entry
        rename_i htr
        obtain ⟨h1, h2⟩ := Prod.mk.injEq .. ▸ heq
        subst h1; subst h2
        refine ⟨?_, ?_, ?_, ?_, ?_, ?_, ?_, ?_, ?_⟩
        · intro f hf
          rw [hmid] at hf
          cases hf
        · intro found f _ hfind' htr'
          rw [hfind] at hfind'
          obtain rfl : found = found0 := by simpa using hfind'.symm
          rw [htr] at htr'
          cases htr'
        · intro f _ _
          rfl
        · intro found f _ _ _ _
          rfl
        · intro e he
          cases he
        · intro _
          exact getDriveMap_deleteDriveMap _ noteId
        · intro found _ _ _
          refine ⟨rfl, ?_⟩
          simp [logEvent, deleteDriveMap, countEv, isDeleteEv]
        · intro f msg hf _
          rw [hmid] at hf
          cases hf
        · intro found f msg _ hfind' htr' _
          rw [hfind] at hfind'
          obtain rfl : found = found0 := by simpa using hfind'.symm
          rw [htr] at htr'
          cases htr'

/-- Witness for `pushDelete_spec`: a not-found remote delete is treated
as success. -/
theorem pushDelete_spec_witness :
    (pushDelete envNotFound "a" stMapped).1 = Except.ok () :=
  (pushDelete_spec envNotFound "a" stMapped
      (pushDelete envNotFound "a" stMapped).1
      (pushDelete envNotFound "a" stMapped).2 rfl).2.2.1 "fX" rfl rfl

/-- `ensureDriveMapping` never touches the meta store. -/
lemma ensureDriveMapping_meta (st : St) (noteId fileId : String) :
    (ensureDriveMapping st noteId fileId).meta = st.meta := by
  simp only [ensureDriveMapping]
  split
  · rfl
  · simp [putDriveMap]

/-- Processing one change entry never touches the meta store. -/
lemma pullChangeStep_meta (env : Drive) (ch : Change) (st : St) :
    ((pullChangeStep env ch st).2).meta = st.meta := by
  simp only [pullChangeStep]
  split
  · rfl
  · split
    · rfl
    · split
      · rfl
      · split
        · rfl
        · split
          · simp [logEvent]
          · split
            · simp [logEvent]
            · split
              · rw [ensureDriveMapping_meta]
                simp [putNote, logEvent]
              · rw [ensureDriveMapping_meta]
                simp [logEvent]

/-- Processing a page of changes never touches the meta store. -/
lemma pullItems_meta (env : Drive) (chs : List Change) :
    ∀ (pulled : Nat) (st : St), ((pullItems env chs pulled st).2).meta = st.meta := by
  induction chs with
  | nil =>
      intro pulled st
      rfl
  | cons ch rest ih =>
      intro pulled st
      have hm := pullChangeStep_meta env ch st
      simp only [pullItems]
      split
      · rename_i e st2 hstep
        rw [hstep] at hm
        exact hm
      · rename_i c st2 hstep
        rw [hstep] at hm
        rw [ih (pulled + c) st2, hm]

/-- The page loop persists a cursor only on successful completion: when
it ends in an error the meta store is exactly as it started. -/
lemma pullLoop_meta_of_error (env : Drive) :
    ∀ (fuel : Nat) (cursor : String) (pulled : Nat) (st : St) (e : RemoteErr) (st' : St),
      pullLoop env fuel cursor pulled st = some (Except.error e, st') →
      st'.meta = st.meta := by
  intro fuel
  induction fuel with
  | zero =>
      intro cursor pulled st e st' h
      cases h
  | succ fuel ih =>
      intro cursor pulled st e st' h
      simp only [pullLoop] at h
      split at h
      · rename_i e0 hlc
        injection h with hpair
        obtain ⟨h1, h2⟩ := Prod.mk.injEq .. ▸ hpair
        rw [← h2]
        simp [logEvent]
      · rename_i data hlc
        split at h
        · rename_i e0 st2 hitems
          injection h with hpair
          obtain ⟨h1, h2⟩ := Prod.mk.injEq .. ▸ hpair
          have hm := pullItems_meta env data.changes pulled
            (logEvent st (Event.remoteListChanges cursor))
          rw [hitems] at hm
          rw [← h2, hm]
          simp [logEvent]
        · rename_i pulled2 st2 hitems
          split at h
          · rename_i next hnext
            have hm := pullItems_meta env data.changes pulled
              (logEvent st (Event.remoteListChanges cursor))
            rw [hitems] at hm
            rw [ih next pulled2 st2 e st' h, hm]
            simp [logEvent]
          · rename_i hnext
            split at h
            · rename_i tok htok
              simp at h
            · rename_i htok
              simp at h

/-- When a cursor is already stored, `ensureCursor` returns it without
touching anything. -/
lemma ensureCursor_of_cursor (env : Drive) (st : St) (c : String)
    (hc : truthyStr (getMeta st "drive.changeCursor") = some c) :
    ensureCursor env st = (Except.ok c, st) := by
  simp only [ensureCursor]
  split
  · rename_i c' hc'
    rw [hc] at hc'
    obtain rfl : c' = c := by simpa using hc'.symm
    rfl
  · rename_i hc'
    rw [hc] at hc'
    cases hc'

/-- C7: when an incremental pull (a cursor is stored) ends in an
unrecoverable remote error, the persisted change cursor is exactly what
it was when the pull started — it is never advanced past work that
completed, so a retry re-delivers everything not yet processed. -/
theorem pullChanges_error_keeps_cursor (env : Drive) (fuel : Nat) (st : St)
    (c : String) (e : RemoteErr) (st' : St)
    (hc : truthyStr (getMeta st "drive.changeCursor") = some c)
    (h : pullChanges env fuel st = some (Except.error e, st')) :
    getMeta st' "drive.changeCursor" = getMeta st "drive.changeCursor" := by
  have hec := ensureCursor_of_cursor env st c hc
  simp only [pullChanges] at h
  rw [hec] at h
  have h' : pullLoop env fuel c 0 st = some (Except.error e, st') := h
  have hm := pullLoop_meta_of_error env fuel c 0 st e st' h'
  simp only [getMeta, hm]

/-- Witness for `pullChanges_error_keeps_cursor` at a concrete failing
incremental pull. -/
theorem pullChanges_error_keeps_cursor_witness :
    getMeta stPullFailAfter "drive.changeCursor"
      = getMeta stCursorT "drive.changeCursor" :=
  pullChanges_error_keeps_cursor envPullFail 1 stCursorT "T"
    (RemoteErr.other "boom") stPullFailAfter rfl rfl

/-- C8: a change entry flagged removed, or whose file is trashed, is
skipped entirely: the state is unchanged (no local note is created,
modified or tombstoned) and it contributes nothing to the pull count. -/
theorem pullChangeStep_skips_removed (env : Drive) (ch : Change) (st : St)
    (h : ch.removed = true ∨ ∃ f, ch.file = some f ∧ f.trashed = true) :
    pullChangeStep env ch st = (Except.ok 0, st) := by
  have hcond : (ch.removed || (match ch.file with
      | some f => f.trashed
      | none => false)) = true := by
    rcases h with h | ⟨f, hf, ht⟩
    · simp [h]
    · rw [hf]
      simp [ht]
  simp only [pullChangeStep]
  split
  · rfl
  · rw [if_pos hcond]

/-- Witness for `pullChangeStep_skips_removed` at a concrete removed
change entry. -/
theorem pullChangeStep_skips_removed_witness :
    pullChangeStep envOkPush chRemoved stEmpty = (Except.ok 0, stEmpty) :=
  pullChangeStep_skips_removed envOkPush chRemoved stEmpty (Or.inl rfl)

/-- The pull count carried by an `Except.ok` result (0 for errors). -/
def okCount : Except RemoteErr Nat → Nat
  | Except.ok c => c
  | Except.error _ => 0

/-- `countPutNotes` distributes over trace concatenation. -/
lemma countPutNotes_append (a b : List Event) :
    countPutNotes (a ++ b) = countPutNotes a + countPutNotes b := by
  simp [countPutNotes, countEv, List.filter_append]

/-- `ensureDriveMapping` writes no note. -/
lemma ensureDriveMapping_countPut (st : St) (noteId fileId : String) :
    countPutNotes (ensureDriveMapping st noteId fileId).events
      = countPutNotes st.events := by
  simp only [ensureDriveMapping]
  split
  · rfl
  · simp [putDriveMap, countPutNotes_append, countPutNotes, countEv, isPutNoteEv]

/-- Each change entry advances the pull counter by exactly the number of
local note writes it performs. -/
lemma pullChangeStep_countPut (env : Drive) (ch : Change) (st : St) :
    countPutNotes ((pullChangeStep env ch st).2).events
      = countPutNotes st.events + okCount (pullChangeStep env ch st).1 := by
  simp only [pullChangeStep]
  split
  · simp [okCount]
  · split
    · simp [okCount]
    · split
      · simp [okCount]
      · split
        · simp [okCount]
        · split
          · simp [okCount, logEvent, countPutNotes_append, countPutNotes, countEv,
              isPutNoteEv]
          · split
            · simp [okCount, logEvent, countPutNotes_append, countPutNotes, countEv,
                isPutNoteEv]
            · split
              · rw [ensureDriveMapping_countPut]
                simp [okCount, putNote, logEvent, countPutNotes_append, countPutNotes,
                  countEv, isPutNoteEv]
              · rw [ensureDriveMapping_countPut]
                simp [okCount, logEvent, countPutNotes_append, countPutNotes, countEv,
                  isPutNoteEv]

/-- A successfully processed page advances the pull counter by exactly
the number of local note writes it performed. -/
lemma pullItems_countPut (env : Drive) (chs : List Change) :
    ∀ (pulled : Nat) (st : St) (n : Nat) (st2 : St),
      pullItems env chs pulled st = (Except.ok n, st2) →
      countPutNotes st2.events + pulled = countPutNotes st.events + n := by
  induction chs with
  | nil =>
      intro pulled st n st2 heq
      simp only [pullItems] at heq
      obtain ⟨h1, h2⟩ := Prod.mk.injEq .. ▸ heq
      injection h1 with h1
      subst h1
      subst h2
      omega
  | cons ch rest ih =>
      intro pulled st n st2 heq
      simp only [pullItems] at heq
      split at heq
      · rename_i e st3 hstep
        cases heq
      · rename_i c st3 hstep
        have hcount := pullChangeStep_countPut env ch st
        rw [hstep] at hcount
        simp only [okCount] at hcount
        have hrest := ih (pulled + c) st3 n st2 heq
        omega

/-- A successful page loop advances the pull counter by exactly the
number of local note writes it performed. -/
lemma pullLoop_countPut (env : Drive) :
    ∀ (fuel : Nat) (cursor : String) (pulled : Nat) (st : St) (n : Nat) (st2 : St),
      pullLoop env fuel cursor pulled st = some (Except.ok n, st2) →
      countPutNotes st2.events + pulled = countPutNotes st.events + n := by
  intro fuel
  induction fuel with
  | zero =>
      intro cursor pulled st n st2 h
      cases h
  | succ fuel ih =>
      intro cursor pulled st n st2 h
      simp only [pullLoop] at h
      split at h
      · rename_i e0 hlc
        simp at h
      · rename_i data hlc
        split at h
        · rename_i e0 st3 hitems
          simp at h
        · rename_i pulled2 st3 hitems
          have hpage := pullItems_countPut env data.changes pulled
            (logEvent st (Event.remoteListChanges cursor)) pulled2 st3 hitems
          have hlog : countPutNotes (logEvent st (Event.remoteListChanges cursor)).events
              = countPutNotes st.events := by
            simp [logEvent, countPutNotes_append, countPutNotes, countEv, isPutNoteEv]
          split at h
          · rename_i next hnext
            have := ih next pulled2 st3 n st2 h
            omega
          · rename_i hnext
            split at h
            · rename_i tok htok
              injection h with hpair
              obtain ⟨h1, h2⟩ := Prod.mk.injEq .. ▸ hpair
              injection h1 with h1
              subst h1
              have hset : countPutNotes st2.events = countPutNotes st3.events := by
                rw [← h2]
                simp [setMeta, countPutNotes_append, countPutNotes, countEv, isPutNoteEv]
              omega
            · rename_i htok
              injection h with hpair
              obtain ⟨h1, h2⟩ := Prod.mk.injEq .. ▸ hpair
              injection h1 with h1
              subst h1
              have hset : countPutNotes st2.events = countPutNotes st3.events := by
                rw [← h2]
                simp [setMeta, countPutNotes_append, countPutNotes, countEv, isPutNoteEv]
              omega

/-- C3 counterexample: a bootstrap pull (no stored cursor) that creates
one local note from the single remote file returns 0, not 1 — notes
merged during the bootstrap listing are not counted by `pullChanges`. -/
theorem pullChanges_bootstrap_count_cex :
    (pullChanges envBootstrapOne 1 stEmpty).map
        (fun p => (p.1, countPutNotes p.2.events))
      = some (Except.ok 0, 1) := by
  rfl

/-- C3 as amended: for an incremental pull (a cursor is stored) the
value returned by `pullChanges` equals the number of local notes created
or overwritten with remote data during the invocation. -/
theorem pullChanges_incremental_count (env : Drive) (fuel : Nat) (st : St)
    (c : String) (n : Nat) (st' : St)
    (hc : truthyStr (getMeta st "drive.changeCursor") = some c)
    (h : pullChanges env fuel st = some (Except.ok n, st')) :
    n = countPutNotes st'.events - countPutNotes st.events := by
  have hec := ensureCursor_of_cursor env st c hc
  simp only [pullChanges] at h
  rw [hec] at h
  have h' : pullLoop env fuel c 0 st = some (Except.ok n, st') := h
  have := pullLoop_countPut env fuel c 0 st n st' h'
  omega

/-- Witness for `pullChanges_incremental_count` at a concrete
incremental pull applying one remote note. -/
theorem pullChanges_incremental_count_witness :
    1 = countPutNotes stIncAfter.events - countPutNotes stCursorT.events :=
  pullChanges_incremental_count envIncrementalOne 2 stCursorT "T" 1 stIncAfter
    rfl rfl

/-- C9 counterexample: a pull that discovers note "a" under remote file
id "Y" while a mapping to file id "X" is stored leaves the mapping at
"X" — it is not re-pointed at the discovered file id (the write is
guarded by the mapping being absent). -/
theorem pull_mapping_not_reestablished_cex :
    (pullChanges envStaleMapping 1 stStale).map
        (fun p => (p.1, getDriveMap p.2 "a", p.2.events.filter isDownloadEv))
      = some (Except.ok 0, some { noteId := "a", driveFileId := "X" },
          [Event.remoteDownload "Y"])
    ∧ envStaleMapping.parseNote "rawA" = some noteA := by
  exact ⟨rfl, rfl⟩

/-- C9 as amended: for a discovered file the pull establishes the
mapping only when no mapping with a nonempty file id is stored for that
noteId; an existing mapping — even one pointing at a different file id —
is left unchanged. -/
theorem ensureDriveMapping_only_when_absent (st : St) (noteId fileId : String) :
    (∀ m, getDriveMap st noteId = some m → m.driveFileId ≠ "" →
        ensureDriveMapping st noteId fileId = st)
    ∧ (truthyStr ((getDriveMap st noteId).map (fun m => m.driveFileId)) = none →
        getDriveMap (ensureDriveMapping st noteId fileId) noteId =
          some { noteId := noteId, driveFileId := fileId, md5 := none }) := by
  constructor
  · intro m hm hne
    simp only [ensureDriveMapping]
    split
    · rfl
    · rename_i htr
      rw [hm] at htr
      simp [truthyStr, hne] at htr
  · intro htr
    simp only [ensureDriveMapping]
    split
    · rename_i f htr'
      rw [htr] at htr'
      cases htr'
    · exact getDriveMap_putDriveMap st
        { noteId := noteId, driveFileId := fileId, md5 := none }

/-- Witness for `ensureDriveMapping_only_when_absent`: with no stored
mapping the discovered file id is written. -/
theorem ensureDriveMapping_only_when_absent_witness :
    getDriveMap (ensureDriveMapping stEmpty "b" "fY") "b" =
      some { noteId := "b", driveFileId := "fY", md5 := none } :=
  (ensureDriveMapping_only_when_absent stEmpty "b" "fY").2 rfl
